import Mathlib

/-!
Verification development for the call-center orchestration core: the routing
engine (rule evaluation, worker-pool scheduling, wait queue with timeout),
the message bus and its in-memory broker, the event system's bounded
history, and the agent lifecycle state machine.  Each definition is a
shallow embedding of the corresponding Python function, with machine
integers as `Nat`/`Int`, floats as `ℚ`, dictionaries as association lists
in insertion order, and Python's stable `sorted` as `List.insertionSort`.
-/

namespace Routing

/-- Embeds `RoutingDecision` (src/agents/routing_agent.py). -/
inductive RoutingDecision
  | autoResolve
  | agentTransfer
  | escalate
  | callback
  | endCall
deriving DecidableEq

/-- Embeds `AgentSkillLevel` (src/agents/routing_agent.py). -/
inductive AgentSkillLevel
  | junior
  | intermediate
  | senior
  | specialist
  | supervisor
deriving DecidableEq

/-- Embeds the dataclass `AgentProfile` (a worker profile in the pool).
Loads and capacities are machine integers (`Nat`); the performance score,
a Python float used only for comparisons, is embedded as `ℚ`. -/
structure AgentProfile where
  agent_id : String
  name : String
  skill_level : AgentSkillLevel
  specializations : List String
  current_load : Nat
  max_capacity : Nat
  availability : Bool
  performance_score : ℚ
  languages : List String
deriving DecidableEq

/-- Embeds the property `AgentProfile.is_available`:
`self.availability and self.current_load < self.max_capacity`. -/
def AgentProfile.is_available (a : AgentProfile) : Bool :=
  a.availability && decide (a.current_load < a.max_capacity)

/-- Embeds `AgentProfile.load_percentage`:
`(current_load / max_capacity) * 100 if max_capacity > 0 else 0`. -/
def AgentProfile.load_percentage (a : AgentProfile) : ℚ :=
  if 0 < a.max_capacity then ((a.current_load : ℚ) / (a.max_capacity : ℚ)) * 100 else 0

/-- A value stored in the routing-factor dictionary: the call attributes
are strings except `business_hours`, which is a boolean. -/
inductive FactorVal
  | str (s : String)
  | bool (b : Bool)
deriving DecidableEq

/-- Embeds the dataclass `RoutingRule`: a condition map (attribute key to
expected value), an action, an integer priority and optional targets. -/
structure RoutingRule where
  rule_id : String
  name : String
  conditions : List (String × FactorVal)
  action : RoutingDecision
  priority : Int
  target_skill_level : Option AgentSkillLevel := none
  target_specialization : Option String := none
deriving DecidableEq

/-- The five routing factors assembled in `_make_routing_decision`
(priority, category, complexity, sentiment, business_hours). -/
structure CallFactors where
  priority : String
  category : String
  complexity : String
  sentiment : String
  business_hours : Bool
deriving DecidableEq

/-- Lookup in the factor dictionary built at the call site of
`_check_rule_conditions`; keys other than the five factor keys are absent
(`key in factors` is false for them). -/
def factorsLookup (f : CallFactors) (k : String) : Option FactorVal :=
  if k = "priority" then some (FactorVal.str f.priority)
  else if k = "category" then some (FactorVal.str f.category)
  else if k = "complexity" then some (FactorVal.str f.complexity)
  else if k = "sentiment" then some (FactorVal.str f.sentiment)
  else if k = "business_hours" then some (FactorVal.bool f.business_hours)
  else none

/-- Embeds `RoutingAgent._check_rule_conditions`: returns `False` exactly
when some condition key is present in the factor dictionary with a
different value. -/
def check_rule_conditions (rule : RoutingRule) (factors : CallFactors) : Bool :=
  rule.conditions.all fun kv =>
    match factorsLookup factors kv.1 with
    | some v => v == kv.2
    | none => true

/-- The comparison key used by Python's
`sorted(self.routing_rules, key=lambda r: r.priority)`. -/
def ruleLE (r s : RoutingRule) : Prop := r.priority ≤ s.priority

instance : DecidableRel ruleLE := fun r s => inferInstanceAs (Decidable (r.priority ≤ s.priority))

instance : IsTotal RoutingRule ruleLE := ⟨fun a b => Int.le_total a.priority b.priority⟩

instance : IsTrans RoutingRule ruleLE := ⟨fun _ _ _ => Int.le_trans⟩

/-- The rule-scan portion of `_make_routing_decision` (lines 259-266):
iterate the rules in ascending priority (Python's `sorted` is stable;
`List.insertionSort` is the same stable sort) and take the first rule whose
conditions hold. -/
def select_rule (rules : List RoutingRule) (factors : CallFactors) : Option RoutingRule :=
  (rules.insertionSort ruleLE).find? (fun r => check_rule_conditions r factors)

/-- Python truthiness of an `Optional[str]`: `None` and `""` are falsy. -/
def optStrTruthy : Option String → Bool
  | none => false
  | some s => !(s == "")

/-- Python truthiness of an `Optional[float]`: `None` and `0.0` are falsy. -/
def optRatTruthy : Option ℚ → Bool
  | none => false
  | some q => !(q == 0)

/-- The lexicographic key comparison behind
`candidates.sort(key=lambda a: (a.performance_score, -a.load_percentage), reverse=True)`:
`a` precedes `b` when `b`'s key `(performance_score, -load_percentage)` is
lexicographically at most `a`'s (a stable descending sort). -/
def candGE (a b : AgentProfile) : Prop :=
  b.performance_score < a.performance_score ∨
    (b.performance_score = a.performance_score ∧ -b.load_percentage ≤ -a.load_percentage)

instance : DecidableRel candGE := fun _ _ =>
  inferInstanceAs (Decidable (_ ∨ _))

instance : IsTotal AgentProfile candGE := by
  refine ⟨fun a b => ?_⟩
  rcases lt_trichotomy a.performance_score b.performance_score with h | h | h
  · exact Or.inr (Or.inl h)
  · rcases le_total (-a.load_percentage) (-b.load_percentage) with h2 | h2
    · exact Or.inr (Or.inr ⟨h, h2⟩)
    · exact Or.inl (Or.inr ⟨h.symm, h2⟩)
  · exact Or.inl (Or.inl h)

instance : IsTrans AgentProfile candGE := by
  refine ⟨fun a b c hab hbc => ?_⟩
  rcases hab with h1 | ⟨e1, l1⟩
  · rcases hbc with h2 | ⟨e2, _⟩
    · exact Or.inl (lt_trans h2 h1)
    · exact Or.inl (e2 ▸ h1)
  · rcases hbc with h2 | ⟨e2, l2⟩
    · exact Or.inl (e1 ▸ h2)
    · exact Or.inr ⟨e2.trans e1, le_trans l2 l1⟩

/-- The candidate filter of `_find_best_agent`: available, matching the
required skill level when one is given, matching the required
specialization when a truthy one is given, and supporting the language. -/
def candidateOk (skill_level : Option AgentSkillLevel) (specialization : Option String)
    (language : String) (a : AgentProfile) : Bool :=
  a.is_available &&
    (match skill_level with
     | some s => a.skill_level == s
     | none => true) &&
    (match specialization with
     | some sp => if sp = "" then true else decide (sp ∈ a.specializations)
     | none => true) &&
    decide (language ∈ a.languages)

/-- Embeds `RoutingAgent._find_best_agent`: filter the pool (in insertion
order) by the candidate criteria, stable-sort descending by
`(performance_score, -load_percentage)`, and return the first candidate's
id, or `None` when there is no candidate. -/
def find_best_agent (pool : List AgentProfile) (skill_level : Option AgentSkillLevel)
    (specialization : Option String) (language : String) : Option String :=
  match (pool.filter (candidateOk skill_level specialization language)).insertionSort candGE with
  | [] => none
  | c :: _ => some c.agent_id

/-- Embeds `RoutingAgent._find_supervisor`: the first available
supervisor-level worker in pool order, if any. -/
def find_supervisor (pool : List AgentProfile) : Option String :=
  match pool.find? (fun a => a.skill_level == AgentSkillLevel.supervisor && a.is_available) with
  | some a => some a.agent_id
  | none => none

/-- Embeds the `QueueEntry` dictionary appended by `_add_to_queue`:
call id, the call-metadata snapshot (of which only the `language` key is
read downstream), the rule that produced the wait, and the enqueue
timestamp (seconds). -/
structure QueueEntry where
  call_id : String
  metadata_language : Option String
  rule : RoutingRule
  queued_at : Int
deriving DecidableEq

/-- The mutable `RoutingAgent` state touched by routing decisions: the
worker pool (`available_agents` dict in insertion order), the routing
rules, the wait queue, the active-route map and the decision history. -/
structure RoutingState where
  available_agents : List AgentProfile
  routing_rules : List RoutingRule
  queue : List QueueEntry
  active_routes : List (String × RoutingDecision × Option String)
  routing_history : List (String × RoutingDecision × Option String)
deriving DecidableEq

/-- The routing configuration read from `custom_config` in `__init__`:
auto-resolve threshold, escalation threshold, and maximum queue time. -/
structure RoutingConfig where
  auto_resolve_threshold : ℚ
  escalation_threshold : ℚ
  max_queue_time : Int
deriving DecidableEq

/-- Embeds `RoutingAgent._make_routing_decision` from the point where the
five routing factors have been extracted (lines 258-291): scan the rules
in priority order; for a matching `agentTransfer` rule search the pool and
fall back to enqueue-and-`callback` when no truthy target is found; for
any other matching rule return its action with no target; with no matching
rule apply the confidence-based defaults.  Returns the decision, the
target and the (possibly queue-extended) state. -/
def make_routing_decision (cfg : RoutingConfig) (st : RoutingState) (call_id : String)
    (factors : CallFactors) (language : Option String) (resolution_confidence : ℚ)
    (quality_score : Option ℚ) (now : Int) :
    RoutingDecision × Option String × RoutingState :=
  match select_rule st.routing_rules factors with
  | some rule =>
    if rule.action = RoutingDecision.agentTransfer then
      let target := find_best_agent st.available_agents rule.target_skill_level
        rule.target_specialization (language.getD "en")
      if optStrTruthy target then
        (rule.action, target, st)
      else
        (RoutingDecision.callback, none,
          { st with queue := st.queue ++ [⟨call_id, language, rule, now⟩] })
    else
      (rule.action, none, st)
  | none =>
    if cfg.auto_resolve_threshold ≤ resolution_confidence then
      (RoutingDecision.autoResolve, none, st)
    else if optRatTruthy quality_score && decide (quality_score.getD 0 < cfg.escalation_threshold) then
      (RoutingDecision.escalate, find_supervisor st.available_agents, st)
    else
      (RoutingDecision.agentTransfer,
        find_best_agent st.available_agents none (some factors.category) (language.getD "en"), st)

/-- The load update `self.available_agents[target].current_load += 1`. -/
def incrLoad (pool : List AgentProfile) (target : String) : List AgentProfile :=
  pool.map fun a =>
    if a.agent_id = target then { a with current_load := a.current_load + 1 } else a

/-- Embeds `RoutingAgent._execute_routing`: record the active route, and
for an `agentTransfer` or `escalate` decision with a truthy target
increment that worker's `current_load`; the other decisions (and the
untargeted transfer/escalate cases) leave the pool unchanged. -/
def execute_routing (st : RoutingState) (call_id : String) (decision : RoutingDecision)
    (target : Option String) : RoutingState :=
  let st1 := { st with active_routes := st.active_routes ++ [(call_id, decision, target)] }
  match decision with
  | RoutingDecision.agentTransfer =>
    if optStrTruthy target then
      { st1 with available_agents := incrLoad st1.available_agents (target.getD "") }
    else st1
  | RoutingDecision.escalate =>
    if optStrTruthy target then
      { st1 with available_agents := incrLoad st1.available_agents (target.getD "") }
    else st1
  | _ => st1

/-- The inputs of one routing request handled by
`_handle_routing_request` (factors already extracted). -/
structure CallRequest where
  call_id : String
  factors : CallFactors
  language : Option String
  resolution_confidence : ℚ
  quality_score : Option ℚ
  now : Int
deriving DecidableEq

/-- Embeds `RoutingAgent._handle_routing_request` (minus message I/O):
make the routing decision, execute it, and record it in the history.
Returns the new state together with the decision and target. -/
def handle_routing_request (cfg : RoutingConfig) (st : RoutingState) (req : CallRequest) :
    RoutingState × RoutingDecision × Option String :=
  let r := make_routing_decision cfg st req.call_id req.factors req.language
    req.resolution_confidence req.quality_score req.now
  let st2 := execute_routing r.2.2 req.call_id r.1 r.2.1
  ({ st2 with routing_history := st2.routing_history ++ [(req.call_id, r.1, r.2.1)] },
    r.1, r.2.1)

/-- An outcome emitted by the wait-queue sweep: a transfer to a worker or
a scheduled callback. -/
inductive SweepOutcome
  | transfer (call_id : String) (target : String)
  | callback (call_id : String)
deriving DecidableEq

/-- The per-entry body of the loop in `RoutingAgent._process_queue`,
processed left to right: an entry with a truthy matching worker is
transferred (note: without any load update) and removed; otherwise an
entry whose age exceeds `max_queue_time` is converted to a callback and
removed; otherwise the entry is kept. -/
def process_queue_items (pool : List AgentProfile) (cfg : RoutingConfig) (now : Int) :
    List QueueEntry → List SweepOutcome × List QueueEntry
  | [] => ([], [])
  | item :: rest =>
    let tail := process_queue_items pool cfg now rest
    let target := find_best_agent pool item.rule.target_skill_level
      item.rule.target_specialization (item.metadata_language.getD "en")
    if optStrTruthy target then
      (SweepOutcome.transfer item.call_id (target.getD "") :: tail.1, tail.2)
    else if cfg.max_queue_time < now - item.queued_at then
      (SweepOutcome.callback item.call_id :: tail.1, tail.2)
    else
      (tail.1, item :: tail.2)

/-- Embeds `RoutingAgent._process_queue`: sweep every queue entry against
the (unmodified) pool, emit the outcomes, and keep only the unprocessed
entries.  The pool is not touched by the sweep. -/
def process_queue (cfg : RoutingConfig) (st : RoutingState) (now : Int) :
    RoutingState × List SweepOutcome :=
  let r := process_queue_items st.available_agents cfg now st.queue
  ({ st with queue := r.2 }, r.1)

/-- One engine operation against the shared state: handling a routing
request, or one run of the periodic wait-queue sweep. -/
inductive EngineOp
  | route (req : CallRequest)
  | sweep (now : Int)

/-- Apply one engine operation to the routing state. -/
def engine_step (cfg : RoutingConfig) (st : RoutingState) : EngineOp → RoutingState
  | EngineOp.route req => (handle_routing_request cfg st req).1
  | EngineOp.sweep now => (process_queue cfg st now).1

/-- Apply a sequence of engine operations. -/
def engine_run (cfg : RoutingConfig) (st : RoutingState) (ops : List EngineOp) : RoutingState :=
  ops.foldl (engine_step cfg) st

end Routing

namespace Lifecycle

/-- Embeds `AgentState` (src/core/base_agent.py). -/
inductive AState
  | idle
  | initializing
  | ready
  | processing
  | error
  | shutdown
deriving DecidableEq

/-- The lifecycle-relevant part of a `BaseAgent`: the current state and the
append-only transition history recorded by `set_state`. -/
structure LState where
  state : AState
  history : List (AState × AState)
deriving DecidableEq

/-- Embeds `BaseAgent.set_state`: record `(old_state, new_state)` in the
history and switch to the new state.  There is no guard of any kind. -/
def set_state (st : LState) (s : AState) : LState :=
  { state := s, history := st.history ++ [(st.state, s)] }

/-- Embeds `BaseAgent.initialize` with the concrete `_initialize` hook
outcome given by `ok`: unconditionally enter `initializing`, then `ready`
on hook success or `error` on hook failure (in which case the call
raises `AgentException`). -/
def op_init (ok : Bool) (st : LState) : LState :=
  let st1 := set_state st AState.initializing
  if ok then set_state st1 AState.ready else set_state st1 AState.error

/-- Embeds `BaseAgent.start`: raises unless the state is `ready`, and in
either case performs no `set_state` call, so the state and the recorded
history are unchanged. -/
def op_start (st : LState) : LState := st

/-- Embeds `BaseAgent.stop`: unconditionally transition to `shutdown`
(no guard on the current state). -/
def op_stop (st : LState) : LState := set_state st AState.shutdown

/-- Embeds `BaseAgent.restart`: `stop()` then `initialize()` then
`start()`; when the re-initialization hook fails, `initialize` raises and
`start` is never reached. -/
def op_restart (ok : Bool) (st : LState) : LState :=
  let st1 := op_stop st
  let st2 := op_init ok st1
  if ok then op_start st2 else st2

/-- A public lifecycle call, with the hook outcome for the calls that run
the `_initialize` hook. -/
inductive LCmd
  | init (ok : Bool)
  | start
  | stop
  | restart (ok : Bool)

/-- Apply one lifecycle call. -/
def lstep (st : LState) : LCmd → LState
  | LCmd.init ok => op_init ok st
  | LCmd.start => op_start st
  | LCmd.stop => op_stop st
  | LCmd.restart ok => op_restart ok st

/-- Apply a sequence of lifecycle calls. -/
def lrun (st : LState) (cmds : List LCmd) : LState :=
  cmds.foldl lstep st

/-- The constructor state: `self.state = AgentState.IDLE`, empty history. -/
def init_lstate : LState := { state := AState.idle, history := [] }

/-- The legal transition table as written in the specification (section 3):
Idle→Initializing→Ready→(loop Ready↔Processing)→Shutdown, any
state→Error, and Error→Initializing (the restart path). -/
def specLegal : AState → AState → Bool
  | AState.idle, AState.initializing => true
  | AState.initializing, AState.ready => true
  | AState.ready, AState.processing => true
  | AState.processing, AState.ready => true
  | AState.ready, AState.shutdown => true
  | AState.processing, AState.shutdown => true
  | _, AState.error => true
  | AState.error, AState.initializing => true
  | _, _ => false

/-- The transition table the code actually realizes: `initialize` records
any→Initializing then Initializing→Ready or Initializing→Error, and
`stop` records any→Shutdown. -/
def codeLegal : AState → AState → Bool
  | _, AState.initializing => true
  | AState.initializing, AState.ready => true
  | AState.initializing, AState.error => true
  | _, AState.shutdown => true
  | _, _ => false

end Lifecycle

namespace Msging

/-- The part of the `Message` model relevant to bus and broker metrics
bookkeeping. -/
structure Message where
  id : String
  sender : String
  recipient : String
deriving DecidableEq

/-- The bus-facing outcome of one `MessageBus.publish` call: the call
returned normally, or it raised `CommunicationException`. -/
inductive PubOutcome
  | success
  | raised
deriving DecidableEq

/-- The `MessageBus` fields touched by `publish`: the connection flag, the
three counters and the publish audit history (message ids). -/
structure BusState where
  is_connected : Bool
  messages_sent : Nat
  messages_received : Nat
  errors : Nat
  message_history : List String
deriving DecidableEq

/-- Embeds `MessageBus.publish` with the broker delegation outcome given
by `broker_ok`: inside the `try`, a disconnected bus raises "not
connected" and a failing broker raises; either exception lands in the
`except` block which increments `errors` and re-raises
`CommunicationException`.  After a successful delegation `sent` is
incremented, but constructing the audit entry then evaluates
`message.type.value` on a plain `str` (the `Message` model is declared
with `use_enum_values = True`, so its `type` field holds the enum's
string value, which has no `.value` attribute): the resulting
`AttributeError` is caught by the same `except`, which increments
`errors` and re-raises — so no audit entry is ever appended and this
path raises as well, with both `sent` and `errors` incremented. -/
def bus_publish (st : BusState) (broker_ok : Bool) (_m : Message) : BusState × PubOutcome :=
  if st.is_connected = false then
    ({ st with errors := st.errors + 1 }, PubOutcome.raised)
  else if broker_ok then
    ({ st with
        messages_sent := st.messages_sent + 1,
        errors := st.errors + 1 }, PubOutcome.raised)
  else
    ({ st with errors := st.errors + 1 }, PubOutcome.raised)

/-- A callback registered with the in-memory broker: its identity and
whether invoking it on a given message raises. -/
structure MemHandler where
  hid : Nat
  raisesOn : Message → Bool

/-- One callback invocation performed by `MemoryBroker.publish`: which
handler ran, on which message, and whether it raised (a raise is caught
and logged by the broker). -/
structure Invocation where
  hid : Nat
  msg : Message
  raised : Bool
deriving DecidableEq

/-- The `MemoryBroker` state: the `subscriptions` dictionary, an
association list in insertion order whose keys (topics) are unique by
construction of `subscribe`. -/
structure MemoryBrokerState where
  subscriptions : List (String × List MemHandler)

/-- Dictionary lookup `self.subscriptions[topic]` (with the `topic in
self.subscriptions` guard). -/
def lookup_topic (subs : List (String × List MemHandler)) (topic : String) :
    Option (List MemHandler) :=
  match subs.find? (fun p => p.1 == topic) with
  | some p => some p.2
  | none => none

/-- Embeds `MemoryBroker.subscribe`: create the topic's list if absent and
append the handler to it. -/
def mem_subscribe (st : MemoryBrokerState) (topic : String) (h : MemHandler) :
    MemoryBrokerState :=
  match lookup_topic st.subscriptions topic with
  | some _ =>
    { subscriptions := st.subscriptions.map fun p =>
        if p.1 == topic then (p.1, p.2 ++ [h]) else p }
  | none => { subscriptions := st.subscriptions ++ [(topic, [h])] }

/-- Embeds `MemoryBroker.publish`: invoke every handler subscribed to the
topic, in registration order, each inside a `try`/`except` that catches
and logs a handler failure; the returned trace records each invocation.
Publishing to an unknown topic invokes nothing. -/
def mem_publish (st : MemoryBrokerState) (topic : String) (m : Message) : List Invocation :=
  match lookup_topic st.subscriptions topic with
  | none => []
  | some hs => hs.map fun h => { hid := h.hid, msg := m, raised := h.raisesOn m }

/-- Embeds `MemoryBroker.unsubscribe`: regardless of the handler id passed
in, `self.subscriptions[topic].clear()` empties the whole handler list of
that topic (other topics are untouched). -/
def mem_unsubscribe (st : MemoryBrokerState) (topic : String)
    (_handler_id : String) : MemoryBrokerState :=
  { subscriptions := st.subscriptions.map fun p =>
      if p.1 == topic then (p.1, []) else p }

/-- The bus-side handler registry entry tracked by `MessageBus.subscribe`
(`MessageHandler` keyed by `str(id(handler_func))`). -/
structure BusHandlerEntry where
  handler_id : String
  message_count : Nat
deriving DecidableEq

/-- A `MessageBus` running over the in-memory broker: the broker state and
the bus's own per-topic handler registry. -/
structure MemBusState where
  broker : MemoryBrokerState
  handlers : List (String × List BusHandlerEntry)

/-- Embeds `MessageBus.unsubscribe` over the memory broker: delegate to
`MemoryBroker.unsubscribe` (which clears the whole topic), then drop the
one matching entry from the bus's own registry. -/
def bus_unsubscribe (st : MemBusState) (topic : String) (handler_id : String) : MemBusState :=
  { broker := mem_unsubscribe st.broker topic handler_id,
    handlers := st.handlers.map fun p =>
      if p.1 == topic then (p.1, p.2.filter (fun h => !(h.handler_id == handler_id))) else p }

end Msging

namespace EventSys

/-- Embeds `EventType` (src/communication/event_system.py). -/
inductive EventType
  | call_started
  | call_ended
  | transcription_completed
  | summary_generated
  | quality_scored
  | call_routed
  | agent_assigned
  | escalation_triggered
  | system_alert
  | performance_metric
deriving DecidableEq

/-- Embeds the `Event` dataclass. -/
structure Event where
  id : String
  etype : EventType
  source : String
  timestamp : Int
  data : List (String × String)
  correlation_id : Option String := none
deriving DecidableEq

/-- Python list slice `l[-n:]` for a non-negative `n`: the last `n`
elements — except that `l[-0:]` is the whole list. -/
def pySliceLast {α : Type} (n : Nat) (l : List α) : List α :=
  if n = 0 then l else l.drop (l.length - n)

/-- Embeds `EventSystem._add_to_history`: append the event, then when the
length exceeds `max_history` keep `self.event_history[-self.max_history:]`. -/
def add_to_history (max_history : Nat) (history : List Event) (e : Event) : List Event :=
  let h := history ++ [e]
  if max_history < h.length then pySliceLast max_history h else h

/-- A sample event used in concrete evaluations. -/
def sampleEvent : Event :=
  { id := "E0", etype := EventType.call_started, source := "intake", timestamp := 0, data := [] }

end EventSys

namespace Routing

/-- The supervisor worker of end-to-end scenario 1 (the `SUP001` profile
from `_initialize_agent_pool`): available, load 0 of 3, score 0.95. -/
def supProfile : AgentProfile :=
  { agent_id := "SUP001", name := "Supervisor 1", skill_level := AgentSkillLevel.supervisor,
    specializations := ["all"], current_load := 0, max_capacity := 3, availability := true,
    performance_score := (95 : ℚ) / 100, languages := ["en", "es", "fr"] }

/-- Rule `R001` from `_load_routing_rules`: `{priority: "urgent",
sentiment: "negative"} → escalate`, priority 1, supervisor skill tier. -/
def ruleR001 : RoutingRule :=
  { rule_id := "R001", name := "High Priority Escalation",
    conditions := [("priority", FactorVal.str "urgent"), ("sentiment", FactorVal.str "negative")],
    action := RoutingDecision.escalate, priority := 1,
    target_skill_level := some AgentSkillLevel.supervisor }

/-- Rule `R002` from `_load_routing_rules`: technical/high-complexity
calls transfer to a `technical_support` specialist, priority 2. -/
def ruleR002 : RoutingRule :=
  { rule_id := "R002", name := "Technical Issues",
    conditions := [("category", FactorVal.str "technical"), ("complexity", FactorVal.str "high")],
    action := RoutingDecision.agentTransfer, priority := 2,
    target_skill_level := some AgentSkillLevel.specialist,
    target_specialization := some "technical_support" }

/-- The default routing configuration from `RoutingAgent.__init__`:
auto-resolve threshold 0.8, escalation threshold 0.3, max queue time 300. -/
def cfg0 : RoutingConfig :=
  { auto_resolve_threshold := (8 : ℚ) / 10, escalation_threshold := (3 : ℚ) / 10,
    max_queue_time := 300 }

/-- The specialist worker `AGT002` from `_initialize_agent_pool`, taken
here with load 0 so that it is free for a transfer. -/
def specialistProfile : AgentProfile :=
  { agent_id := "AGT002", name := "Specialist Agent 1",
    skill_level := AgentSkillLevel.specialist, specializations := ["technical_support"],
    current_load := 0, max_capacity := 4, availability := true,
    performance_score := (88 : ℚ) / 100, languages := ["en"] }

/-- Scenario-1 state: one available supervisor and the escalation rule. -/
def scenario1State : RoutingState :=
  { available_agents := [supProfile], routing_rules := [ruleR001], queue := [],
    active_routes := [], routing_history := [] }

/-- Scenario-1 call attributes: urgent priority, negative sentiment. -/
def scenario1Factors : CallFactors :=
  { priority := "urgent", category := "general", complexity := "low",
    sentiment := "negative", business_hours := true }

/-- Scenario-1 routing request. -/
def scenario1Req : CallRequest :=
  { call_id := "CALL1", factors := scenario1Factors, language := some "en",
    resolution_confidence := (1 : ℚ) / 2, quality_score := none, now := 0 }

/-- A state whose wait queue holds one entry for rule `R002` while the
matching specialist is free: the next sweep will transfer it. -/
def sweepState : RoutingState :=
  { available_agents := [specialistProfile], routing_rules := [ruleR002],
    queue := [(⟨"C9", some "en", ruleR002, 0⟩ : QueueEntry)],
    active_routes := [], routing_history := [] }

/-- Technical high-complexity call attributes matching rule `R002`. -/
def technicalFactors : CallFactors :=
  { priority := "normal", category := "technical", complexity := "high",
    sentiment := "neutral", business_hours := true }

/-- A routing request matching rule `R002`. -/
def technicalReq : CallRequest :=
  { call_id := "CALL2", factors := technicalFactors, language := some "en",
    resolution_confidence := (1 : ℚ) / 2, quality_score := none, now := 0 }

/-- A state with the free specialist and rule `R002` and an empty queue. -/
def transferState : RoutingState :=
  { available_agents := [specialistProfile], routing_rules := [ruleR002], queue := [],
    active_routes := [], routing_history := [] }

/-- A state with an empty worker pool, rule `R002`, and one queue entry
enqueued at time 0: no worker can ever match. -/
def emptyPoolQueueState : RoutingState :=
  { available_agents := [], routing_rules := [ruleR002],
    queue := [(⟨"C9", some "en", ruleR002, 0⟩ : QueueEntry)],
    active_routes := [], routing_history := [] }

/-- Two condition-free rules with priorities 2 and 1 and distinct actions,
used to exercise priority-ordered selection. -/
def rulePrio2 : RoutingRule :=
  { rule_id := "A", name := "A", conditions := [], action := RoutingDecision.endCall,
    priority := 2 }

/-- The priority-1 rule of the pair. -/
def rulePrio1 : RoutingRule :=
  { rule_id := "B", name := "B", conditions := [], action := RoutingDecision.autoResolve,
    priority := 1 }

end Routing

namespace Msging

/-- A sample message used in concrete evaluations. -/
def sampleMessage : Message := { id := "M1", sender := "intake", recipient := "routing" }

/-- A disconnected bus with some prior metric values. -/
def disconnectedBus : BusState :=
  { is_connected := false, messages_sent := 4, messages_received := 7, errors := 2,
    message_history := ["M0"] }

/-- A connected bus with the same prior metric values. -/
def connectedBus : BusState :=
  { is_connected := true, messages_sent := 4, messages_received := 7, errors := 2,
    message_history := ["M0"] }

/-- A handler that always raises. -/
def raisingHandler : MemHandler := { hid := 1, raisesOn := fun _ => true }

/-- A handler that never raises. -/
def okHandler : MemHandler := { hid := 2, raisesOn := fun _ => false }

/-- A memory broker with two handlers registered on topic `"agent_routing"`
(in this order) and one on `"broadcast"`. -/
def sampleBroker : MemoryBrokerState :=
  { subscriptions := [("agent_routing", [raisingHandler, okHandler]), ("broadcast", [okHandler])] }

/-- A bus over `sampleBroker` with the corresponding registry entries. -/
def sampleBus : MemBusState :=
  { broker := sampleBroker,
    handlers := [("agent_routing", [⟨"1", 0⟩, ⟨"2", 0⟩]), ("broadcast", [⟨"2", 0⟩])] }

end Msging

namespace Routing

theorem find_best_agent_available {pool : List AgentProfile} {sk : Option AgentSkillLevel}
    {sp : Option String} {lang : String} {t : String}
    (h : find_best_agent pool sk sp lang = some t) :
    ∃ a ∈ pool, a.agent_id = t ∧ a.is_available = true := by
  unfold find_best_agent at h
  rcases hs : (pool.filter (candidateOk sk sp lang)).insertionSort candGE with _ | ⟨c, rest⟩
  · rw [hs] at h; exact absurd h (by simp)
  · rw [hs] at h
    simp only [Option.some.injEq] at h
    have hc : c ∈ (pool.filter (candidateOk sk sp lang)).insertionSort candGE :=
      hs ▸ List.mem_cons_self c rest
    rw [List.mem_insertionSort, List.mem_filter] at hc
    refine ⟨c, hc.1, h, ?_⟩
    have hok := hc.2
    unfold candidateOk at hok
    simp only [Bool.and_eq_true] at hok
    exact hok.1.1.1

theorem find_supervisor_available {pool : List AgentProfile} {t : String}
    (h : find_supervisor pool = some t) :
    ∃ a ∈ pool, a.agent_id = t ∧ a.is_available = true := by
  unfold find_supervisor at h
  rcases hf : pool.find? (fun a => a.skill_level == AgentSkillLevel.supervisor && a.is_available)
    with _ | a
  · rw [hf] at h; exact absurd h (by simp)
  · rw [hf] at h
    simp only [Option.some.injEq] at h
    have hm := List.mem_of_find?_eq_some hf
    have hp := List.find?_some hf
    simp only [Bool.and_eq_true] at hp
    exact ⟨a, hm, h, hp.2⟩

theorem make_routing_decision_pool (cfg : RoutingConfig) (st : RoutingState) (cid : String)
    (f : CallFactors) (lang : Option String) (rc : ℚ) (qs : Option ℚ) (now : Int) :
    (make_routing_decision cfg st cid f lang rc qs now).2.2.available_agents =
      st.available_agents := by
  unfold make_routing_decision
  cases hsel : select_rule st.routing_rules f <;>
    simp only [hsel] <;> (repeat' split) <;> rfl

theorem process_queue_pool (cfg : RoutingConfig) (st : RoutingState) (now : Int) :
    (process_queue cfg st now).1.available_agents = st.available_agents := rfl

theorem mem_incrLoad {pool : List AgentProfile} {t : String} {b : AgentProfile}
    (hb : b ∈ incrLoad pool t) :
    ∃ a ∈ pool,
      b = (if a.agent_id = t then { a with current_load := a.current_load + 1 } else a) := by
  unfold incrLoad at hb
  rcases List.mem_map.mp hb with ⟨a, ha, he⟩
  exact ⟨a, ha, he.symm⟩

theorem incrLoad_map_agent_id (pool : List AgentProfile) (t : String) :
    (incrLoad pool t).map AgentProfile.agent_id = pool.map AgentProfile.agent_id := by
  unfold incrLoad
  rw [List.map_map]
  refine List.map_congr_left ?_
  intro a _
  by_cases h : a.agent_id = t <;> simp [h]

theorem incrLoad_load_le {pool : List AgentProfile} {t : String}
    (hinv : ∀ a ∈ pool, a.current_load ≤ a.max_capacity)
    (hav : ∀ a ∈ pool, a.agent_id = t → a.current_load < a.max_capacity) :
    ∀ b ∈ incrLoad pool t, b.current_load ≤ b.max_capacity := by
  intro b hb
  rcases mem_incrLoad hb with ⟨a, ha, rfl⟩
  by_cases h : a.agent_id = t
  · simpa [h] using hav a ha h
  · simpa [h] using hinv a ha

theorem execute_routing_pool (st : RoutingState) (cid : String) (d : RoutingDecision)
    (t : Option String) :
    (execute_routing st cid d t).available_agents =
      if (d = RoutingDecision.agentTransfer ∨ d = RoutingDecision.escalate) ∧
          optStrTruthy t = true
      then incrLoad st.available_agents (t.getD "") else st.available_agents := by
  unfold execute_routing
  cases d <;> by_cases h : optStrTruthy t = true <;> simp [h]

end Routing

namespace Routing

theorem decision_target_available {cfg : RoutingConfig} {st : RoutingState} {cid : String}
    {f : CallFactors} {lang : Option String} {rc : ℚ} {qs : Option ℚ} {now : Int}
    {d : RoutingDecision} {t : String} {st2 : RoutingState}
    (hmk : make_routing_decision cfg st cid f lang rc qs now = (d, some t, st2)) :
    ∃ a ∈ st.available_agents, a.agent_id = t ∧ a.is_available = true := by
  unfold make_routing_decision at hmk
  cases hsel : select_rule st.routing_rules f with
  | none =>
    rw [hsel] at hmk
    simp only at hmk
    by_cases h1 : cfg.auto_resolve_threshold ≤ rc
    · rw [if_pos h1] at hmk
      simp only [Prod.mk.injEq] at hmk
      exact absurd hmk.2.1 (by simp)
    · rw [if_neg h1] at hmk
      by_cases h2 : (optRatTruthy qs && decide (qs.getD 0 < cfg.escalation_threshold)) = true
      · rw [if_pos h2] at hmk
        simp only [Prod.mk.injEq] at hmk
        exact find_supervisor_available hmk.2.1
      · rw [if_neg h2] at hmk
        simp only [Prod.mk.injEq] at hmk
        exact find_best_agent_available hmk.2.1
  | some rule =>
    rw [hsel] at hmk
    simp only at hmk
    by_cases hact : rule.action = RoutingDecision.agentTransfer
    · rw [if_pos hact] at hmk
      by_cases htr : optStrTruthy (find_best_agent st.available_agents rule.target_skill_level
          rule.target_specialization (lang.getD "en")) = true
      · rw [if_pos htr] at hmk
        simp only [Prod.mk.injEq] at hmk
        exact find_best_agent_available hmk.2.1
      · rw [if_neg htr] at hmk
        simp only [Prod.mk.injEq] at hmk
        exact absurd hmk.2.1 (by simp)
    · rw [if_neg hact] at hmk
      simp only [Prod.mk.injEq] at hmk
      exact absurd hmk.2.1 (by simp)

/-- The pool invariant of claim C3: the pool's worker ids are distinct
(they are the keys of the `available_agents` dictionary) and every
worker's load is within its capacity. -/
def PoolInv (st : RoutingState) : Prop :=
  (st.available_agents.map AgentProfile.agent_id).Nodup ∧
    ∀ a ∈ st.available_agents, a.current_load ≤ a.max_capacity

theorem engine_step_poolInv {cfg : RoutingConfig} {st : RoutingState} (op : EngineOp)
    (h : PoolInv st) : PoolInv (engine_step cfg st op) := by
  obtain ⟨hN, hinv⟩ := h
  cases op with
  | sweep now => exact ⟨hN, hinv⟩
  | route req =>
    show PoolInv (handle_routing_request cfg st req).1
    rcases hmk : make_routing_decision cfg st req.call_id req.factors req.language
      req.resolution_confidence req.quality_score req.now with ⟨d, t, stq⟩
    have hpool : stq.available_agents = st.available_agents := by
      have h2 := make_routing_decision_pool cfg st req.call_id req.factors req.language
        req.resolution_confidence req.quality_score req.now
      rw [hmk] at h2
      exact h2
    have hexec : (handle_routing_request cfg st req).1.available_agents =
        (execute_routing stq req.call_id d t).available_agents := by
      unfold handle_routing_request
      rw [hmk]
    unfold PoolInv
    rw [hexec, execute_routing_pool]
    split
    case isTrue hcond =>
      rcases t with _ | s
      · exact absurd hcond.2 (by simp [optStrTruthy])
      · rcases decision_target_available hmk with ⟨a, ha, haid, hav⟩
        simp only [Option.getD_some]
        constructor
        · rw [incrLoad_map_agent_id, hpool]
          exact hN
        · rw [hpool]
          refine incrLoad_load_le hinv ?_
          intro b hb hbid
          have hba : b = a := List.inj_on_of_nodup_map hN hb ha (by rw [hbid, haid])
          subst hba
          unfold AgentProfile.is_available at hav
          simp only [Bool.and_eq_true, decide_eq_true_eq] at hav
          exact hav.2
    case isFalse =>
      rw [hpool]
      exact ⟨hN, hinv⟩

theorem engine_run_poolInv {cfg : RoutingConfig} {st : RoutingState} {ops : List EngineOp}
    (h : PoolInv st) : PoolInv (engine_run cfg st ops) := by
  induction ops generalizing st with
  | nil => exact h
  | cons op rest ih =>
    show PoolInv (engine_run cfg (engine_step cfg st op) rest)
    exact ih (engine_step_poolInv op h)

/-- C3: for every pool of workers and every sequence of routing decisions
made and executed against it (routing requests interleaved with wait-queue
sweeps), each worker's `current_load` never exceeds its `max_capacity`,
given that every worker starts within capacity (and that pool ids are the
unique dictionary keys); a worker is only chosen as a transfer/escalation
target when it `is_available`, i.e. its load is strictly below capacity. -/
theorem c3_load_never_exceeds_capacity (cfg : RoutingConfig) (st : RoutingState)
    (ops : List EngineOp)
    (hN : (st.available_agents.map AgentProfile.agent_id).Nodup)
    (hinv : ∀ a ∈ st.available_agents, a.current_load ≤ a.max_capacity) :
    ∀ a ∈ (engine_run cfg st ops).available_agents, a.current_load ≤ a.max_capacity :=
  (engine_run_poolInv ⟨hN, hinv⟩).2

/-- Witness for C3: a concrete run of a sweep (which transfers the queued
call) followed by a routing request that transfers to the specialist. -/
theorem c3_witness :
    ((sweepState.available_agents.map AgentProfile.agent_id).Nodup ∧
      (∀ a ∈ sweepState.available_agents, a.current_load ≤ a.max_capacity)) ∧
    ∀ a ∈ (engine_run cfg0 sweepState
        [EngineOp.sweep 10, EngineOp.route technicalReq]).available_agents,
      a.current_load ≤ a.max_capacity :=
  ⟨⟨by decide, by decide⟩,
    c3_load_never_exceeds_capacity cfg0 sweepState
      [EngineOp.sweep 10, EngineOp.route technicalReq] (by decide) (by decide)⟩

/-- C1 (amended): when the first matching rule's action is `escalate`, the
decision returned is `escalate` with no target worker (the rule's
supervisor skill tier is never consulted), and executing the decision
leaves every worker's `current_load` unchanged. -/
theorem c1_rule_escalate_untargeted (cfg : RoutingConfig) (st : RoutingState)
    (req : CallRequest) (r : RoutingRule)
    (hsel : select_rule st.routing_rules req.factors = some r)
    (hact : r.action = RoutingDecision.escalate) :
    (handle_routing_request cfg st req).2.1 = RoutingDecision.escalate ∧
    (handle_routing_request cfg st req).2.2 = none ∧
    (handle_routing_request cfg st req).1.available_agents = st.available_agents := by
  have hmk : make_routing_decision cfg st req.call_id req.factors req.language
      req.resolution_confidence req.quality_score req.now =
      (RoutingDecision.escalate, none, st) := by
    unfold make_routing_decision
    rw [hsel]
    simp only
    rw [if_neg (by simp [hact])]
    rw [hact]
  unfold handle_routing_request
  rw [hmk]
  refine ⟨rfl, rfl, ?_⟩
  show (execute_routing st req.call_id RoutingDecision.escalate none).available_agents =
    st.available_agents
  rw [execute_routing_pool]
  simp [optStrTruthy]

/-- Counterexample to C1 as stated: in end-to-end scenario 1 (escalation
rule matched, one available supervisor with score 0.95) the code does not
target the supervisor and does not increment its load. -/
theorem c1_counterexample :
    ¬ ((handle_routing_request cfg0 scenario1State scenario1Req).2.1 =
          RoutingDecision.escalate ∧
        (handle_routing_request cfg0 scenario1State scenario1Req).2.2 = some "SUP001" ∧
        (handle_routing_request cfg0 scenario1State scenario1Req).1.available_agents =
          [{ supProfile with current_load := 1 }]) := by decide

/-- Witness for the amended C1 theorem at the scenario-1 input. -/
theorem c1_witness :
    (select_rule scenario1State.routing_rules scenario1Req.factors = some ruleR001 ∧
      ruleR001.action = RoutingDecision.escalate) ∧
    ((handle_routing_request cfg0 scenario1State scenario1Req).2.1 =
        RoutingDecision.escalate ∧
      (handle_routing_request cfg0 scenario1State scenario1Req).2.2 = none ∧
      (handle_routing_request cfg0 scenario1State scenario1Req).1.available_agents =
        scenario1State.available_agents) :=
  ⟨⟨by decide, by decide⟩,
    c1_rule_escalate_untargeted cfg0 scenario1State scenario1Req ruleR001
      (by decide) (by decide)⟩

end Routing

namespace Routing

/-- C2 (amended): a transfer/escalate decision applied by
`_execute_routing` with a (truthy) target increments exactly that worker's
`current_load` by one; every other engine operation — `_execute_routing`
on any other decision/target combination, `_make_routing_decision`, and
the periodic wait-queue sweep `_process_queue` (whose transfers bypass the
load update) — leaves every worker's `current_load` unchanged. -/
theorem c2_load_mutation (st : RoutingState) (cid t : String) (d : RoutingDecision)
    (hN : (st.available_agents.map AgentProfile.agent_id).Nodup)
    (hmem : ∃ a ∈ st.available_agents, a.agent_id = t)
    (hd : d = RoutingDecision.agentTransfer ∨ d = RoutingDecision.escalate)
    (ht : t ≠ "") :
    ((execute_routing st cid d (some t)).available_agents =
        st.available_agents.map (fun a =>
          if a.agent_id = t then { a with current_load := a.current_load + 1 } else a) ∧
      (st.available_agents.map AgentProfile.agent_id).count t = 1) ∧
    (∀ st2 cid2 d2 t2,
      ¬ ((d2 = RoutingDecision.agentTransfer ∨ d2 = RoutingDecision.escalate) ∧
          optStrTruthy t2 = true) →
      (execute_routing st2 cid2 d2 t2).available_agents = st2.available_agents) ∧
    (∀ cfg2 st2 cid2 f lang rc qs now,
      (make_routing_decision cfg2 st2 cid2 f lang rc qs now).2.2.available_agents =
        st2.available_agents) ∧
    (∀ cfg2 st2 now,
      (process_queue cfg2 st2 now).1.available_agents = st2.available_agents) := by
  refine ⟨⟨?_, ?_⟩, ?_, ?_, ?_⟩
  · rw [execute_routing_pool]
    rw [if_pos ⟨hd, by simp [optStrTruthy, ht]⟩]
    rfl
  · rcases hmem with ⟨a, ha, haid⟩
    have hmemid : t ∈ st.available_agents.map AgentProfile.agent_id :=
      haid ▸ List.mem_map_of_mem AgentProfile.agent_id ha
    have h1 : 0 < (st.available_agents.map AgentProfile.agent_id).count t :=
      List.count_pos_iff.mpr hmemid
    have h2 : (st.available_agents.map AgentProfile.agent_id).count t ≤ 1 :=
      List.nodup_iff_count_le_one.mp hN t
    omega
  · intro st2 cid2 d2 t2 hne
    rw [execute_routing_pool, if_neg hne]
  · intro cfg2 st2 cid2 f lang rc qs now
    exact make_routing_decision_pool cfg2 st2 cid2 f lang rc qs now
  · intro cfg2 st2 now
    exact process_queue_pool cfg2 st2 now

/-- Counterexample to C2 as stated: the periodic sweep over `sweepState`
transfers queued call `"C9"` to the free specialist `"AGT002"`, yet no
worker's `current_load` increases. -/
theorem c2_counterexample :
    SweepOutcome.transfer "C9" "AGT002" ∈ (process_queue cfg0 sweepState 10).2 ∧
    ¬ (∃ a ∈ (process_queue cfg0 sweepState 10).1.available_agents,
        a.agent_id = "AGT002" ∧ a.current_load = specialistProfile.current_load + 1) := by
  decide

/-- Witness for the amended C2 theorem: executing a targeted transfer to
the free specialist. -/
theorem c2_witness :
    ((transferState.available_agents.map AgentProfile.agent_id).Nodup ∧
      (∃ a ∈ transferState.available_agents, a.agent_id = "AGT002") ∧
      (RoutingDecision.agentTransfer = RoutingDecision.agentTransfer ∨
        RoutingDecision.agentTransfer = RoutingDecision.escalate) ∧
      "AGT002" ≠ "") ∧
    ((execute_routing transferState "CALL2" RoutingDecision.agentTransfer
        (some "AGT002")).available_agents =
      transferState.available_agents.map (fun a =>
        if a.agent_id = "AGT002" then { a with current_load := a.current_load + 1 } else a) ∧
      (transferState.available_agents.map AgentProfile.agent_id).count "AGT002" = 1) :=
  ⟨⟨by decide, by decide, by decide, by decide⟩,
    (c2_load_mutation transferState "CALL2" "AGT002" RoutingDecision.agentTransfer
      (by decide) (by decide) (by decide) (by decide)).1⟩

end Routing

namespace Routing

theorem find_first_of_sorted_min {check : RoutingRule → Bool} {r1 : RoutingRule} :
    ∀ {l : List RoutingRule}, l.Sorted ruleLE → r1 ∈ l → check r1 = true →
      (∀ r ∈ l, check r = true → r1.priority < r.priority ∨ r = r1) →
      l.find? check = some r1 := by
  intro l
  induction l with
  | nil => intro _ hmem; exact absurd hmem (List.not_mem_nil r1)
  | cons x xs ih =>
    intro hs hmem hc hmin
    by_cases hx : check x = true
    · rw [List.find?_cons_of_pos xs hx]
      rcases hmin x (List.mem_cons_self x xs) hx with hlt | rfl
      · exfalso
        rcases List.mem_cons.mp hmem with rfl | hmem2
        · exact lt_irrefl _ hlt
        · have hle : ruleLE x r1 := (List.sorted_cons.mp hs).1 r1 hmem2
          exact absurd hlt (not_lt.mpr hle)
      · rfl
    · rw [List.find?_cons_of_neg xs (by simpa using hx)]
      have hne : r1 ≠ x := fun he => hx (he ▸ hc)
      have hmem2 : r1 ∈ xs := (List.mem_cons.mp hmem).resolve_left hne
      exact ih (List.sorted_cons.mp hs).2 hmem2 hc
        (fun r hr hcr => hmin r (List.mem_cons_of_mem x hr) hcr)

/-- C5: rule evaluation is deterministic and priority-ordered — the rules
are scanned in ascending integer priority and the first rule whose every
declared condition key matches the corresponding call attribute supplies
the action; when one matching rule has strictly smaller priority than
every other matching rule, it is the selected rule. -/
theorem c5_priority_order (rules : List RoutingRule) (factors : CallFactors)
    (r1 : RoutingRule) (hmem : r1 ∈ rules)
    (hmatch : check_rule_conditions r1 factors = true)
    (hmin : ∀ r ∈ rules, check_rule_conditions r factors = true →
      r1.priority < r.priority ∨ r = r1) :
    select_rule rules factors = some r1 := by
  unfold select_rule
  refine find_first_of_sorted_min (List.sorted_insertionSort ruleLE rules) ?_ hmatch ?_
  · exact (List.mem_insertionSort ruleLE).mpr hmem
  · intro r hr hcr
    exact hmin r ((List.mem_insertionSort ruleLE).mp hr) hcr

/-- Witness for C5: two rules that both match (priorities 1 and 2); the
priority-1 rule is selected. -/
theorem c5_witness :
    (rulePrio1 ∈ [rulePrio2, rulePrio1] ∧
      check_rule_conditions rulePrio1 scenario1Factors = true ∧
      (∀ r ∈ [rulePrio2, rulePrio1], check_rule_conditions r scenario1Factors = true →
        rulePrio1.priority < r.priority ∨ r = rulePrio1)) ∧
    select_rule [rulePrio2, rulePrio1] scenario1Factors = some rulePrio1 :=
  ⟨⟨by decide, by decide, by decide⟩,
    c5_priority_order [rulePrio2, rulePrio1] scenario1Factors rulePrio1
      (by decide) (by decide) (by decide)⟩

theorem mem_process_queue_items_kept {pool : List AgentProfile} {cfg : RoutingConfig}
    {now : Int} {x : QueueEntry} :
    ∀ {q : List QueueEntry}, x ∈ (process_queue_items pool cfg now q).2 →
      x ∈ q ∧
      optStrTruthy (find_best_agent pool x.rule.target_skill_level
        x.rule.target_specialization (x.metadata_language.getD "en")) = false ∧
      ¬ (cfg.max_queue_time < now - x.queued_at) := by
  intro q
  induction q with
  | nil => intro hx; exact absurd hx (List.not_mem_nil x)
  | cons item rest ih =>
    intro hx
    unfold process_queue_items at hx
    by_cases h1 : optStrTruthy (find_best_agent pool item.rule.target_skill_level
        item.rule.target_specialization (item.metadata_language.getD "en")) = true
    · rw [if_pos h1] at hx
      have := ih hx
      exact ⟨List.mem_cons_of_mem item this.1, this.2⟩
    · rw [if_neg h1] at hx
      by_cases h2 : cfg.max_queue_time < now - item.queued_at
      · rw [if_pos h2] at hx
        have := ih hx
        exact ⟨List.mem_cons_of_mem item this.1, this.2⟩
      · rw [if_neg h2] at hx
        rcases List.mem_cons.mp hx with rfl | hx2
        · exact ⟨List.mem_cons_self x rest, by simpa using h1, h2⟩
        · have := ih hx2
          exact ⟨List.mem_cons_of_mem item this.1, this.2⟩

theorem callback_mem_process_queue_items {pool : List AgentProfile} {cfg : RoutingConfig}
    {now : Int} {e : QueueEntry} :
    ∀ {q : List QueueEntry}, e ∈ q →
      optStrTruthy (find_best_agent pool e.rule.target_skill_level
        e.rule.target_specialization (e.metadata_language.getD "en")) = false →
      cfg.max_queue_time < now - e.queued_at →
      SweepOutcome.callback e.call_id ∈ (process_queue_items pool cfg now q).1 := by
  intro q
  induction q with
  | nil => intro hmem; exact absurd hmem (List.not_mem_nil e)
  | cons item rest ih =>
    intro hmem hno hage
    unfold process_queue_items
    rcases List.mem_cons.mp hmem with rfl | hmem2
    · rw [if_neg (by simpa using hno), if_pos hage]
      exact List.mem_cons_self _ _
    · by_cases h1 : optStrTruthy (find_best_agent pool item.rule.target_skill_level
          item.rule.target_specialization (item.metadata_language.getD "en")) = true
      · rw [if_pos h1]
        exact List.mem_cons_of_mem _ (ih hmem2 hno hage)
      · rw [if_neg h1]
        by_cases h2 : cfg.max_queue_time < now - item.queued_at
        · rw [if_pos h2]
          exact List.mem_cons_of_mem _ (ih hmem2 hno hage)
        · rw [if_neg h2]
          exact ih hmem2 hno hage

/-- C7: on every sweep, a queue entry whose age exceeds `max_queue_time`
and for which no matching worker is available is converted to a `callback`
outcome and removed from the queue. -/
theorem c7_timeout_callback (cfg : RoutingConfig) (st : RoutingState) (now : Int)
    (e : QueueEntry) (he : e ∈ st.queue)
    (hno : optStrTruthy (find_best_agent st.available_agents e.rule.target_skill_level
      e.rule.target_specialization (e.metadata_language.getD "en")) = false)
    (hage : cfg.max_queue_time < now - e.queued_at) :
    SweepOutcome.callback e.call_id ∈ (process_queue cfg st now).2 ∧
      e ∉ (process_queue cfg st now).1.queue := by
  constructor
  · exact callback_mem_process_queue_items he hno hage
  · intro hmem
    exact absurd hage (mem_process_queue_items_kept hmem).2.2

/-- Witness for C7: a queue entry aged 1000 s (limit 300 s) with an empty
worker pool is converted to a callback and dequeued by the sweep. -/
theorem c7_witness :
    ((⟨"C9", some "en", ruleR002, 0⟩ : QueueEntry) ∈ emptyPoolQueueState.queue ∧
      optStrTruthy (find_best_agent emptyPoolQueueState.available_agents
        ruleR002.target_skill_level ruleR002.target_specialization "en") = false ∧
      cfg0.max_queue_time < (1000 : Int) - 0) ∧
    (SweepOutcome.callback "C9" ∈ (process_queue cfg0 emptyPoolQueueState 1000).2 ∧
      (⟨"C9", some "en", ruleR002, 0⟩ : QueueEntry) ∉
        (process_queue cfg0 emptyPoolQueueState 1000).1.queue) :=
  ⟨⟨by decide, by decide, by decide⟩,
    c7_timeout_callback cfg0 emptyPoolQueueState 1000 ⟨"C9", some "en", ruleR002, 0⟩
      (by decide) (by decide) (by decide)⟩

end Routing

namespace Lifecycle

/-- The invariant maintained by every lifecycle call: all recorded
transitions are in the realized table, no recorded endpoint and no current
state is `processing`. -/
def LInv (st : LState) : Prop :=
  (∀ p ∈ st.history, codeLegal p.1 p.2 = true ∧
    p.1 ≠ AState.processing ∧ p.2 ≠ AState.processing) ∧
  st.state ≠ AState.processing

theorem lstep_linv {st : LState} (c : LCmd) (h : LInv st) : LInv (lstep st c) := by
  obtain ⟨hh, hs⟩ := h
  have hset : ∀ (st1 : LState) (s : AState), LInv st1 → codeLegal st1.state s = true →
      s ≠ AState.processing → LInv (set_state st1 s) := by
    intro st1 s h1 hleg hns
    refine ⟨?_, hns⟩
    intro p hp
    rcases List.mem_append.mp hp with hp1 | hp2
    · exact h1.1 p hp1
    · rcases List.mem_singleton.mp hp2 with rfl
      exact ⟨hleg, h1.2, hns⟩
  have hinit : ∀ (ok : Bool) (st1 : LState), LInv st1 → LInv (op_init ok st1) := by
    intro ok st1 h1
    have h2 : LInv (set_state st1 AState.initializing) := by
      refine hset st1 AState.initializing h1 ?_ (by decide)
      cases st1.state <;> rfl
    unfold op_init
    cases ok with
    | true => exact hset _ AState.ready h2 rfl (by decide)
    | false => exact hset _ AState.error h2 rfl (by decide)
  have hstop : ∀ (st1 : LState), LInv st1 → LInv (op_stop st1) := by
    intro st1 h1
    refine hset st1 AState.shutdown h1 ?_ (by decide)
    cases st1.state <;> rfl
  cases c with
  | init ok => exact hinit ok st ⟨hh, hs⟩
  | start => exact ⟨hh, hs⟩
  | stop => exact hstop st ⟨hh, hs⟩
  | restart ok =>
    show LInv (op_restart ok st)
    unfold op_restart
    cases ok with
    | true => exact hinit true _ (hstop st ⟨hh, hs⟩)
    | false => exact hinit false _ (hstop st ⟨hh, hs⟩)

theorem lrun_linv {st : LState} {cmds : List LCmd} (h : LInv st) : LInv (lrun st cmds) := by
  induction cmds generalizing st with
  | nil => exact h
  | cons c rest ih =>
    show LInv (lrun (lstep st c) rest)
    exact ih (lstep_linv c h)

/-- C4 (amended): for any sequence of initialize/start/stop/restart calls
from the freshly constructed agent, every recorded transition lies in the
table the code realizes — any state→Initializing (via initialize or
restart), Initializing→Ready, Initializing→Error, any state→Shutdown (via
stop) — and the agent never enters `Processing` at all (so in particular
never without having been `Ready`). -/
theorem c4_transition_table (cmds : List LCmd) :
    (∀ p ∈ (lrun init_lstate cmds).history, codeLegal p.1 p.2 = true) ∧
    (lrun init_lstate cmds).state ≠ AState.processing ∧
    (∀ p ∈ (lrun init_lstate cmds).history,
      p.1 ≠ AState.processing ∧ p.2 ≠ AState.processing) := by
  have h : LInv (lrun init_lstate cmds) :=
    lrun_linv ⟨fun p hp => absurd hp (List.not_mem_nil p), by decide⟩
  exact ⟨fun p hp => (h.1 p hp).1, h.2, fun p hp => (h.1 p hp).2⟩

/-- Counterexample to C4 as stated: calling `stop()` on a fresh agent
records the transition Idle→Shutdown, which is not in the specification's
legal transition table. -/
theorem c4_counterexample :
    ¬ (∀ p ∈ (lrun init_lstate [LCmd.stop]).history, specLegal p.1 p.2 = true) := by
  decide

/-- Witness for the amended C4 theorem on a concrete call sequence
exercising initialize, a failing restart, a further start and stop. -/
theorem c4_witness :
    (∀ p ∈ (lrun init_lstate
        [LCmd.init true, LCmd.restart false, LCmd.start, LCmd.stop]).history,
      codeLegal p.1 p.2 = true) ∧
    (lrun init_lstate
        [LCmd.init true, LCmd.restart false, LCmd.start, LCmd.stop]).state ≠
      AState.processing ∧
    (∀ p ∈ (lrun init_lstate
        [LCmd.init true, LCmd.restart false, LCmd.start, LCmd.stop]).history,
      p.1 ≠ AState.processing ∧ p.2 ≠ AState.processing) :=
  c4_transition_table [LCmd.init true, LCmd.restart false, LCmd.start, LCmd.stop]

end Lifecycle

namespace Msging

/-- C6 (amended): publishing on a disconnected bus raises
`CommunicationException`, increments the `errors` counter by exactly one
and leaves `sent` unchanged; a broker publish failure likewise increments
`errors` and re-raises with `sent` unchanged; `sent` is incremented
exactly on successful broker delegation — but on that path constructing
the audit entry raises `AttributeError` (`message.type` is a plain string
under `use_enum_values`), caught by the same `except`: so the call still
raises `CommunicationException`, `errors` still increments by exactly one,
and the audit history is never appended to on any path. -/
theorem c6_publish_error_paths (st : BusState) (m : Message)
    (hdis : st.is_connected = false) :
    (∀ broker_ok,
      (bus_publish st broker_ok m).2 = PubOutcome.raised ∧
      (bus_publish st broker_ok m).1.errors = st.errors + 1 ∧
      (bus_publish st broker_ok m).1.messages_sent = st.messages_sent) ∧
    (∀ (st2 : BusState) (m2 : Message), st2.is_connected = true →
      ((bus_publish st2 false m2).2 = PubOutcome.raised ∧
        (bus_publish st2 false m2).1.errors = st2.errors + 1 ∧
        (bus_publish st2 false m2).1.messages_sent = st2.messages_sent) ∧
      ((bus_publish st2 true m2).2 = PubOutcome.raised ∧
        (bus_publish st2 true m2).1.messages_sent = st2.messages_sent + 1 ∧
        (bus_publish st2 true m2).1.errors = st2.errors + 1)) ∧
    (∀ (st2 : BusState) (broker_ok : Bool) (m2 : Message),
      (bus_publish st2 broker_ok m2).1.messages_sent =
        st2.messages_sent +
          (if st2.is_connected = true ∧ broker_ok = true then 1 else 0)) ∧
    (∀ (st2 : BusState) (broker_ok : Bool) (m2 : Message),
      (bus_publish st2 broker_ok m2).1.message_history = st2.message_history) := by
  refine ⟨?_, ?_, ?_, ?_⟩
  · intro broker_ok
    unfold bus_publish
    rw [if_pos hdis]
    exact ⟨rfl, rfl, rfl⟩
  · intro st2 m2 hcon
    have hne : ¬ st2.is_connected = false := by rw [hcon]; decide
    constructor
    · unfold bus_publish
      rw [if_neg hne, if_neg (by decide)]
      exact ⟨rfl, rfl, rfl⟩
    · unfold bus_publish
      rw [if_neg hne, if_pos rfl]
      exact ⟨rfl, rfl, rfl⟩
  · intro st2 broker_ok m2
    unfold bus_publish
    cases hcon : st2.is_connected with
    | false =>
      rw [if_pos rfl, if_neg (by simp [hcon])]
      rfl
    | true =>
      rw [if_neg (by simp [hcon])]
      cases broker_ok with
      | true => rw [if_pos rfl, if_pos ⟨rfl, rfl⟩]
      | false =>
        rw [if_neg (by decide), if_neg (by simp)]
        rfl
  · intro st2 broker_ok m2
    unfold bus_publish
    by_cases h1 : st2.is_connected = false
    · rw [if_pos h1]
    · rw [if_neg h1]
      cases broker_ok with
      | true => rw [if_pos rfl]
      | false => rw [if_neg (by decide)]

/-- Counterexample to C6 as stated: on a connected bus with a succeeding
broker delegation (no broker failure), the publish call nevertheless
raises and increments `errors` — and `sent` is incremented on a call that
fails — because the audit-entry construction raises `AttributeError`. -/
theorem c6_counterexample :
    (bus_publish connectedBus true sampleMessage).2 = PubOutcome.raised ∧
    (bus_publish connectedBus true sampleMessage).1.errors = connectedBus.errors + 1 ∧
    (bus_publish connectedBus true sampleMessage).1.messages_sent =
      connectedBus.messages_sent + 1 ∧
    (bus_publish connectedBus true sampleMessage).1.message_history =
      connectedBus.message_history ∧
    ¬ ((bus_publish connectedBus true sampleMessage).2 = PubOutcome.success ∧
        (bus_publish connectedBus true sampleMessage).1.errors = connectedBus.errors) := by
  decide

/-- Witness for the amended C6 theorem at a concrete disconnected bus. -/
theorem c6_witness :
    disconnectedBus.is_connected = false ∧
    ((bus_publish disconnectedBus true sampleMessage).2 = PubOutcome.raised ∧
      (bus_publish disconnectedBus true sampleMessage).1.errors =
        disconnectedBus.errors + 1 ∧
      (bus_publish disconnectedBus true sampleMessage).1.messages_sent =
        disconnectedBus.messages_sent) :=
  ⟨by decide, (c6_publish_error_paths disconnectedBus sampleMessage (by decide)).1 true⟩

theorem filter_hid_map_length {m : Message} {h : MemHandler} :
    ∀ {hs : List MemHandler}, (hs.map MemHandler.hid).Nodup → h ∈ hs →
      ((hs.map fun h2 => (⟨h2.hid, m, h2.raisesOn m⟩ : Invocation)).filter
        (fun inv => inv.hid == h.hid)).length = 1 := by
  intro hs
  induction hs with
  | nil => intro _ hmem; exact absurd hmem (List.not_mem_nil h)
  | cons x rest ih =>
    intro hN hmem
    have hN2 : (rest.map MemHandler.hid).Nodup := (List.nodup_cons.mp hN).2
    have hxnot : x.hid ∉ rest.map MemHandler.hid := (List.nodup_cons.mp hN).1
    rcases List.mem_cons.mp hmem with rfl | hmem2
    · simp only [List.map, List.filter, beq_self_eq_true]
      have hrest : ((rest.map fun h2 => (⟨h2.hid, m, h2.raisesOn m⟩ : Invocation)).filter
          (fun inv => inv.hid == h.hid)) = [] := by
        refine List.filter_eq_nil_iff.mpr ?_
        intro inv hinv
        rcases List.mem_map.mp hinv with ⟨h2, hh2, rfl⟩
        have : h2.hid ≠ h.hid := by
          intro he
          exact hxnot (he ▸ List.mem_map_of_mem MemHandler.hid hh2)
        simpa using this
      rw [hrest]
      rfl
    · have hxh : (x.hid == h.hid) = false := by
        have : x.hid ≠ h.hid := by
          intro he
          exact hxnot (he ▸ List.mem_map_of_mem MemHandler.hid hmem2)
        simpa using this
      simp only [List.map, List.filter, hxh]
      exact ih hN2 hmem2

/-- C8: an envelope published on a topic of the in-memory broker produces
exactly one callback invocation per handler subscribed to that topic
before the publish, in registration order, every invocation carrying that
envelope; a handler that raises is caught in the per-handler `try` —
publish still completes the whole trace, so the failure neither propagates
to the publisher nor prevents delivery to the remaining handlers. -/
theorem c8_memory_fanout (st : MemoryBrokerState) (topic : String) (m : Message)
    (hs : List MemHandler) (hl : lookup_topic st.subscriptions topic = some hs) :
    mem_publish st topic m =
      hs.map (fun h => (⟨h.hid, m, h.raisesOn m⟩ : Invocation)) ∧
    (mem_publish st topic m).map Invocation.hid = hs.map MemHandler.hid ∧
    (∀ inv ∈ mem_publish st topic m, inv.msg = m) ∧
    ((hs.map MemHandler.hid).Nodup → ∀ h ∈ hs,
      ((mem_publish st topic m).filter (fun inv => inv.hid == h.hid)).length = 1) := by
  have hpub : mem_publish st topic m =
      hs.map (fun h => (⟨h.hid, m, h.raisesOn m⟩ : Invocation)) := by
    unfold mem_publish
    rw [hl]
  refine ⟨hpub, ?_, ?_, ?_⟩
  · rw [hpub, List.map_map]
    rfl
  · intro inv hinv
    rw [hpub] at hinv
    rcases List.mem_map.mp hinv with ⟨h2, _, rfl⟩
    rfl
  · intro hN h hmem
    rw [hpub]
    exact filter_hid_map_length hN hmem

/-- Witness for C8: a raising handler and a normal handler on topic
`"agent_routing"`; both are invoked once, in order, with the message. -/
theorem c8_witness :
    lookup_topic sampleBroker.subscriptions "agent_routing" =
      some [raisingHandler, okHandler] ∧
    (mem_publish sampleBroker "agent_routing" sampleMessage =
      [raisingHandler, okHandler].map
        (fun h => (⟨h.hid, sampleMessage, h.raisesOn sampleMessage⟩ : Invocation)) ∧
    (mem_publish sampleBroker "agent_routing" sampleMessage).map Invocation.hid =
      [raisingHandler, okHandler].map MemHandler.hid ∧
    (∀ inv ∈ mem_publish sampleBroker "agent_routing" sampleMessage,
      inv.msg = sampleMessage) ∧
    (([raisingHandler, okHandler].map MemHandler.hid).Nodup →
      ∀ h ∈ [raisingHandler, okHandler],
        ((mem_publish sampleBroker "agent_routing" sampleMessage).filter
          (fun inv => inv.hid == h.hid)).length = 1)) :=
  ⟨rfl, c8_memory_fanout sampleBroker "agent_routing" sampleMessage
    [raisingHandler, okHandler] rfl⟩

end Msging

namespace EventSys

/-- C9 (amended): for a positive `max_history` bound, after
`_add_to_history` the history holds at most `max_history` events and
equals the suffix of most recent events of the appended sequence (oldest
evicted first), in arrival order. -/
theorem c9_bounded_history (max_history : Nat) (history : List Event) (e : Event)
    (hpos : 1 ≤ max_history) :
    (add_to_history max_history history e).length ≤ max_history ∧
    add_to_history max_history history e =
      (history ++ [e]).drop (history.length + 1 - max_history) := by
  unfold add_to_history
  simp only
  have hlen : (history ++ [e]).length = history.length + 1 := by
    rw [List.length_append, List.length_singleton]
  by_cases h : max_history < (history ++ [e]).length
  · rw [if_pos h]
    unfold pySliceLast
    rw [if_neg (by omega)]
    constructor
    · rw [List.length_drop]
      omega
    · rw [hlen]
  · rw [if_neg h]
    rw [hlen] at h
    constructor
    · rw [hlen]
      omega
    · rw [Nat.sub_eq_zero_of_le (by omega), List.drop_zero]

/-- Counterexample to C9 as stated: with `max_history = 0` the Python
trim `self.event_history[-0:]` is the whole list, so after processing one
event the history holds 1 > 0 events. -/
theorem c9_counterexample :
    ¬ ((add_to_history 0 [] sampleEvent).length ≤ 0) := by decide

/-- Witness for the amended C9 theorem: bound 2, history already at the
bound; the oldest event is evicted. -/
theorem c9_witness :
    1 ≤ 2 ∧
    ((add_to_history 2 [sampleEvent, sampleEvent] sampleEvent).length ≤ 2 ∧
      add_to_history 2 [sampleEvent, sampleEvent] sampleEvent =
        ([sampleEvent, sampleEvent] ++ [sampleEvent]).drop
          ([sampleEvent, sampleEvent].length + 1 - 2)) :=
  ⟨by decide, c9_bounded_history 2 [sampleEvent, sampleEvent] sampleEvent (by decide)⟩

end EventSys

namespace Msging

theorem clearTopic_key (topic : String) (p : String × List MemHandler) :
    ((fun q : String × List MemHandler => q.1 == topic) ∘
      (fun q : String × List MemHandler =>
        if q.1 == topic then (q.1, ([] : List MemHandler)) else q)) p =
      (p.1 == topic) := by
  simp only [Function.comp]
  split <;> rfl

theorem clearTopic_key2 (topic t2 : String) (p : String × List MemHandler) :
    ((fun q : String × List MemHandler => q.1 == t2) ∘
      (fun q : String × List MemHandler =>
        if q.1 == topic then (q.1, ([] : List MemHandler)) else q)) p =
      (p.1 == t2) := by
  simp only [Function.comp]
  split <;> rfl

theorem lookup_topic_clear (l : List (String × List MemHandler)) (topic : String) :
    lookup_topic (l.map fun p => if p.1 == topic then (p.1, ([] : List MemHandler)) else p)
      topic = (lookup_topic l topic).map (fun _ => ([] : List MemHandler)) := by
  unfold lookup_topic
  rw [List.find?_map]
  rw [funext (clearTopic_key topic)]
  cases hf : l.find? (fun p => p.1 == topic) with
  | none => rfl
  | some q =>
    have hq0 := List.find?_some hf
    have hq : (q.1 == topic) = true := hq0
    simp only [Option.map_some']
    rw [if_pos hq]

theorem lookup_topic_clear_other (l : List (String × List MemHandler)) (topic t2 : String)
    (hne : (t2 == topic) = false) :
    lookup_topic (l.map fun p => if p.1 == topic then (p.1, ([] : List MemHandler)) else p)
      t2 = lookup_topic l t2 := by
  unfold lookup_topic
  rw [List.find?_map]
  rw [funext (clearTopic_key2 topic t2)]
  cases hf : l.find? (fun p => p.1 == t2) with
  | none => rfl
  | some q =>
    have hq0 := List.find?_some hf
    have hq : q.1 = t2 := by simpa using hq0
    have hqt : ¬ ((q.1 == topic) = true) := by
      rw [hq]
      simp only [hne]
      decide
    simp only [Option.map_some']
    rw [if_neg hqt]

/-- C10: unsubscribing a single handler token from a topic on the
in-memory broker (directly or through `MessageBus.unsubscribe`) clears the
topic's whole handler list, so a subsequent publish on that topic delivers
to no handler at all — every other handler on the topic also stops
receiving envelopes; other topics are unaffected. -/
theorem c10_unsubscribe_clears_topic (st : MemBusState) (topic handler_id : String)
    (m : Message) :
    mem_publish (bus_unsubscribe st topic handler_id).broker topic m = [] ∧
    mem_publish (mem_unsubscribe st.broker topic handler_id) topic m = [] ∧
    (∀ t2, (t2 == topic) = false →
      lookup_topic (bus_unsubscribe st topic handler_id).broker.subscriptions t2 =
        lookup_topic st.broker.subscriptions t2) := by
  have hmem : ∀ (b : MemoryBrokerState),
      mem_publish (mem_unsubscribe b topic handler_id) topic m = [] := by
    intro b
    unfold mem_publish mem_unsubscribe
    rw [lookup_topic_clear]
    cases lookup_topic b.subscriptions topic <;> rfl
  refine ⟨hmem st.broker, hmem st.broker, ?_⟩
  intro t2 hne
  show lookup_topic (mem_unsubscribe st.broker topic handler_id).subscriptions t2 =
    lookup_topic st.broker.subscriptions t2
  unfold mem_unsubscribe
  exact lookup_topic_clear_other st.broker.subscriptions topic t2 hne

/-- Witness for C10: after unsubscribing handler token `"1"` from
`"agent_routing"` on the sample bus, publishing there delivers nothing
(handler `"2"` included), while `"broadcast"` still has its handler. -/
theorem c10_witness :
    mem_publish (bus_unsubscribe sampleBus "agent_routing" "1").broker
      "agent_routing" sampleMessage = [] ∧
    lookup_topic (bus_unsubscribe sampleBus "agent_routing" "1").broker.subscriptions
      "broadcast" = lookup_topic sampleBus.broker.subscriptions "broadcast" :=
  ⟨(c10_unsubscribe_clears_topic sampleBus "agent_routing" "1" sampleMessage).1,
    (c10_unsubscribe_clears_topic sampleBus "agent_routing" "1" sampleMessage).2.2
      "broadcast" (by decide)⟩

end Msging
